import Mathlib

/-!
Verification development for the convex-polyhedron geometry subsystem of the
reactphysics3d repository: the half-edge topology (`HalfEdgeStructure.h`) and
the geometric queries of `ConvexMeshShape` (support point, raycast, point
containment, local bounds).

The `decimal` floating-point type is embedded as `ℚ` with exact arithmetic;
machine constants such as `DECIMAL_SMALLEST` (`std::numeric_limits lowest`)
become explicit rational constants. C++ `assert` statements are modelled
either as `Option` results (`none` = assertion failure / abort) or as an
explicit boolean assertion condition.
-/

namespace RP3D

/-- The 3D vector value type `Vector3` of the source (components of type
`decimal`, embedded as `ℚ`). -/
structure Vector3 where
  x : ℚ
  y : ℚ
  z : ℚ
deriving DecidableEq

/-- `Vector3::dot`: the dot product of two vectors. -/
def Vector3.dot (a b : Vector3) : ℚ :=
  a.x * b.x + a.y * b.y + a.z * b.z

/-- Componentwise sum, `operator+(Vector3, Vector3)`. -/
def Vector3.add (a b : Vector3) : Vector3 :=
  ⟨a.x + b.x, a.y + b.y, a.z + b.z⟩

/-- Componentwise difference, `operator-(Vector3, Vector3)`. -/
def Vector3.sub (a b : Vector3) : Vector3 :=
  ⟨a.x - b.x, a.y - b.y, a.z - b.z⟩

/-- Scalar multiplication, `operator*(decimal, Vector3)`. -/
def Vector3.smul (c : ℚ) (v : Vector3) : Vector3 :=
  ⟨c * v.x, c * v.y, c * v.z⟩

/-- Componentwise product of two vectors, `operator*(Vector3, Vector3)`
(used as `vertex * mScale`). -/
def Vector3.compMul (v s : Vector3) : Vector3 :=
  ⟨v.x * s.x, v.y * s.y, v.z * s.z⟩

/-- The zero vector (`Vector3::zero`). -/
def Vector3.zeroVec : Vector3 := ⟨0, 0, 0⟩

/-- `HalfEdgeStructure::Edge`: a directed half-edge record. -/
structure Edge where
  vertexIndex : ℕ
  twinEdgeIndex : ℕ
  faceIndex : ℕ
  nextEdgeIndex : ℕ
deriving DecidableEq

/-- `HalfEdgeStructure::Face`: one half-edge index plus the ordered vertex
indices of the face boundary. -/
structure Face where
  edgeIndex : ℕ
  faceVertices : List ℕ
deriving DecidableEq

/-- `HalfEdgeStructure::Vertex`: index of the vertex point in the coordinate
array, plus one emanating half-edge. -/
structure Vertex where
  vertexPointIndex : ℕ
  edgeIndex : ℕ
deriving DecidableEq

/-- `HalfEdgeStructure`: the three dense arrays of faces, vertices and
half-edges. -/
structure HalfEdgeStructure where
  faces : List Face
  vertices : List Vertex
  edges : List Edge
deriving DecidableEq

/-- `HalfEdgeStructure::getNbFaces`. -/
def HalfEdgeStructure.getNbFaces (s : HalfEdgeStructure) : ℕ := s.faces.length

/-- `HalfEdgeStructure::getNbHalfEdges`. -/
def HalfEdgeStructure.getNbHalfEdges (s : HalfEdgeStructure) : ℕ := s.edges.length

/-- `HalfEdgeStructure::getNbVertices`. -/
def HalfEdgeStructure.getNbVertices (s : HalfEdgeStructure) : ℕ := s.vertices.length

/-- `HalfEdgeStructure::getFace`: `assert(index < mFaces.size()); return mFaces[index];`.
The assertion failure (abort) is modelled as `none`; an in-range lookup
returns the stored record. -/
def HalfEdgeStructure.getFace (s : HalfEdgeStructure) (index : ℕ) : Option Face :=
  if h : index < s.faces.length then some (s.faces.get ⟨index, h⟩) else none

/-- `HalfEdgeStructure::getHalfEdge`: `assert(index < mEdges.size()); return mEdges[index];`.
Assertion failure modelled as `none`. -/
def HalfEdgeStructure.getHalfEdge (s : HalfEdgeStructure) (index : ℕ) : Option Edge :=
  if h : index < s.edges.length then some (s.edges.get ⟨index, h⟩) else none

/-- `HalfEdgeStructure::getVertex`: `assert(index < mVertices.size()); return mVertices[index];`.
Assertion failure modelled as `none`. -/
def HalfEdgeStructure.getVertex (s : HalfEdgeStructure) (index : ℕ) : Option Vertex :=
  if h : index < s.vertices.length then some (s.vertices.get ⟨index, h⟩) else none

/-- Total face lookup used inside the query loops, where the C++ code calls
`getFace(f)` with `f < getNbFaces()` so the assertion always holds; the
default is unreachable there. -/
def HalfEdgeStructure.faceD (s : HalfEdgeStructure) (index : ℕ) : Face :=
  s.faces.getD index { edgeIndex := 0, faceVertices := [] }

/-- Total vertex lookup used inside the query loops (always in range there). -/
def HalfEdgeStructure.vertexD (s : HalfEdgeStructure) (index : ℕ) : Vertex :=
  s.vertices.getD index { vertexPointIndex := 0, edgeIndex := 0 }

/-- The parts of `ConvexMesh` that `ConvexMeshShape` queries: the coordinate
array (`getVertex`), the face-normal array (`getFaceNormal`) and the
half-edge structure. The accessors of `ConvexMesh` are plain array getters
(its implementation file is not part of this corpus; the arrays are as §3 of
the specification describes them). -/
structure ConvexMesh where
  vertices : List Vector3
  faceNormals : List Vector3
  halfEdgeStructure : HalfEdgeStructure
deriving DecidableEq

/-- `ConvexMesh::getNbVertices`. -/
def ConvexMesh.getNbVertices (m : ConvexMesh) : ℕ := m.vertices.length

/-- `ConvexMesh::getVertex i`: coordinate lookup. -/
def ConvexMesh.getVertex (m : ConvexMesh) (i : ℕ) : Vector3 :=
  m.vertices.getD i Vector3.zeroVec

/-- `ConvexMesh::getFaceNormal f`: face-normal lookup. -/
def ConvexMesh.getFaceNormal (m : ConvexMesh) (f : ℕ) : Vector3 :=
  m.faceNormals.getD f Vector3.zeroVec

/-- `ConvexMesh::getNbFaces`: the number of faces of the half-edge structure. -/
def ConvexMesh.getNbFaces (m : ConvexMesh) : ℕ :=
  m.halfEdgeStructure.getNbFaces

/-- `ConvexMeshShape`: a convex mesh together with the non-uniform scale
vector `mScale`. -/
structure ConvexMeshShape where
  convexMesh : ConvexMesh
  scale : Vector3
deriving DecidableEq

/-- `DECIMAL_SMALLEST`, the lowest finite value of the single-precision
`decimal` type, as an exact rational. -/
def DECIMAL_SMALLEST : ℚ := -(2 ^ 128 - 2 ^ 104)

/-- The scan loop of `ConvexMeshShape::getLocalSupportPointWithoutMargin`:
walk the vertex list carrying the running pair
`(maxDotProduct, indexMaxDotProduct)`, updating on a strict increase
(`dotProduct > maxDotProduct`). `i` is the index of the head of `l` in the
full vertex array. -/
def supportLoopAux (d : Vector3) : List Vector3 → ℕ → ℚ × ℕ → ℚ × ℕ
  | [], _, acc => acc
  | v :: rest, i, (m, j) =>
    let dp := Vector3.dot d v
    if m < dp then supportLoopAux d rest (i + 1) (dp, i)
    else supportLoopAux d rest (i + 1) (m, j)

/-- The full scan, starting from `(DECIMAL_SMALLEST, 0)` as in the source. -/
def supportLoop (d : Vector3) (verts : List Vector3) : ℚ × ℕ :=
  supportLoopAux d verts 0 (DECIMAL_SMALLEST, 0)

/-- The vertex index selected by the scan of
`ConvexMeshShape::getLocalSupportPointWithoutMargin`. -/
def supportIndex (s : ConvexMeshShape) (d : Vector3) : ℕ :=
  (supportLoop d s.convexMesh.vertices).2

/-- `ConvexMeshShape::getLocalSupportPointWithoutMargin`: return the vertex
with the largest dot product in the support direction, scaled by `mScale`. -/
def ConvexMeshShape.getLocalSupportPointWithoutMargin
    (s : ConvexMeshShape) (d : Vector3) : Vector3 :=
  Vector3.compMul (s.convexMesh.getVertex (supportIndex s d)) s.scale

/-- The condition of the `assert(maxDotProduct >= decimal(0.0))` statement at
the end of `getLocalSupportPointWithoutMargin`. -/
def supportAssertHolds (s : ConvexMeshShape) (d : Vector3) : Bool :=
  decide ((0 : ℚ) ≤ (supportLoop d s.convexMesh.vertices).1)

/-- The scaled vertex points of a shape (each stored vertex multiplied
componentwise by `mScale`). -/
def scaledPoints (s : ConvexMeshShape) : List Vector3 :=
  s.convexMesh.vertices.map (fun v => Vector3.compMul v s.scale)

/-- `Ray`: the ray value type (`point1`, `point2`, `maxFraction`). -/
structure Ray where
  point1 : Vector3
  point2 : Vector3
  maxFraction : ℚ
deriving DecidableEq

/-- The fields of `RaycastInfo` that `ConvexMeshShape::raycast` fills in
(the body/collider back-references are not geometric data). -/
structure RaycastHit where
  hitFraction : ℚ
  worldPoint : Vector3
  worldNormal : Vector3
deriving DecidableEq

/-- The mutable state of the face-clipping loop of `ConvexMeshShape::raycast`:
`tMin`, `tMax`, `currentFaceNormal` and `isIntersectionFound`. -/
structure RayClipState where
  tMin : ℚ
  tMax : ℚ
  currentFaceNormal : Vector3
  isIntersectionFound : Bool
deriving DecidableEq

/-- The first vertex point of face `f` as `raycast` and `testPointInside`
fetch it: `getVertex(face.faceVertices[0])` then the coordinate at its
`vertexPointIndex`. -/
def ConvexMesh.facePointAt (m : ConvexMesh) (f : ℕ) : Vector3 :=
  m.getVertex ((m.halfEdgeStructure.vertexD
    ((m.halfEdgeStructure.faceD f).faceVertices.getD 0 0)).vertexPointIndex)

/-- `denom = faceNormal.dot(direction)` for face `f`. -/
def faceDenom (m : ConvexMesh) (direction : Vector3) (f : ℕ) : ℚ :=
  Vector3.dot (m.getFaceNormal f) direction

/-- `dist = faceNormal.dot(facePoint) - faceNormal.dot(ray.point1)` for face `f`. -/
def faceDist (m : ConvexMesh) (p1 : Vector3) (f : ℕ) : ℚ :=
  Vector3.dot (m.getFaceNormal f) (m.facePointAt f) -
    Vector3.dot (m.getFaceNormal f) p1

/-- One iteration of the face loop of `ConvexMeshShape::raycast`; `none`
models the early `return false` exits (ray parallel to and outside a face,
or the clipped interval becoming empty). -/
def raycastFaceStep (m : ConvexMesh) (p1 direction : Vector3)
    (st : RayClipState) (f : ℕ) : Option RayClipState :=
  let faceNormal := m.getFaceNormal f
  let denom := faceDenom m direction f
  let dist := faceDist m p1 f
  if denom = 0 then
    if dist < 0 then none else some st
  else
    let t := dist / denom
    let st' :=
      if denom < 0 then
        if st.tMin < t then
          { st with tMin := t, currentFaceNormal := faceNormal,
                    isIntersectionFound := true }
        else st
      else
        if t < st.tMax then { st with tMax := t } else st
    if st'.tMax < st'.tMin then none else some st'

/-- The face loop of `ConvexMeshShape::raycast` over a given list of face
indices, threading the early exits through `Option.bind`. -/
def raycastLoop (m : ConvexMesh) (p1 direction : Vector3)
    (fs : List ℕ) (st : Option RayClipState) : Option RayClipState :=
  fs.foldl (fun acc f => acc.bind (fun s => raycastFaceStep m p1 direction s f)) st

/-- The complete face-clipping loop of `ConvexMeshShape::raycast`, from the
initial state `tMin = 0`, `tMax = ray.maxFraction`, zero candidate normal,
`isIntersectionFound = false`. -/
def raycastClip (m : ConvexMesh) (p1 direction : Vector3) (maxFraction : ℚ) :
    Option RayClipState :=
  raycastLoop m p1 direction (List.range m.getNbFaces)
    (some { tMin := 0, tMax := maxFraction,
            currentFaceNormal := Vector3.zeroVec, isIntersectionFound := false })

/-- `ConvexMeshShape::raycast`: run the face-clipping loop; on completion,
report a hit exactly when `isIntersectionFound`, with fraction `tMin`, point
`ray.point1 + tMin * direction` and the recorded candidate face normal. -/
def ConvexMeshShape.raycast (s : ConvexMeshShape) (ray : Ray) : Option RaycastHit :=
  let direction := Vector3.sub ray.point2 ray.point1
  match raycastClip s.convexMesh ray.point1 direction ray.maxFraction with
  | none => none
  | some st =>
    if st.isIntersectionFound then
      some { hitFraction := st.tMin,
             worldPoint := Vector3.add ray.point1 (Vector3.smul st.tMin direction),
             worldNormal := st.currentFaceNormal }
    else none

/-- Modelled from the spec: `computePointToPlaneDistance` (declared in the
mathematics functions header, whose implementation is not part of this
corpus) is the signed distance `dot(normal, point) - dot(normal, facePoint)`
of §4.2 of the specification. -/
def computePointToPlaneDistance (point faceNormal facePoint : Vector3) : ℚ :=
  Vector3.dot faceNormal point - Vector3.dot faceNormal facePoint

/-- `ConvexMeshShape::testPointInside`: return `false` as soon as some face
plane has the point strictly outside, `true` if the loop completes. -/
def ConvexMeshShape.testPointInside (s : ConvexMeshShape) (localPoint : Vector3) : Bool :=
  (List.range s.convexMesh.getNbFaces).all (fun f =>
    if 0 < computePointToPlaneDistance localPoint (s.convexMesh.getFaceNormal f)
        (s.convexMesh.facePointAt f) then false else true)

/-- `AABB`: minimum and maximum coordinates of an axis-aligned bounding box. -/
structure AABB where
  minCoordinates : Vector3
  maxCoordinates : Vector3
deriving DecidableEq

/-- Minimum of a list of rationals, folded from its head (0 for an empty
list, which corresponds to an empty mesh). -/
def listMin : List ℚ → ℚ
  | [] => 0
  | x :: xs => xs.foldl min x

/-- Maximum of a list of rationals, folded from its head. -/
def listMax : List ℚ → ℚ
  | [] => 0
  | x :: xs => xs.foldl max x

/-- Modelled from the spec: `ConvexMesh::getBounds` (implementation not part
of this corpus) returns the componentwise minimum / maximum over all vertex
coordinates of the mesh (§4.2, local bounds). -/
def ConvexMesh.getBounds (m : ConvexMesh) : AABB :=
  { minCoordinates := ⟨listMin (m.vertices.map Vector3.x),
                       listMin (m.vertices.map Vector3.y),
                       listMin (m.vertices.map Vector3.z)⟩,
    maxCoordinates := ⟨listMax (m.vertices.map Vector3.x),
                       listMax (m.vertices.map Vector3.y),
                       listMax (m.vertices.map Vector3.z)⟩ }

/-- Modelled from the spec: `AABB::applyScale` (implementation not part of
this corpus) multiplies the minimum and maximum coordinates componentwise by
the scale vector. -/
def AABB.applyScale (a : AABB) (scale : Vector3) : AABB :=
  { minCoordinates := Vector3.compMul a.minCoordinates scale,
    maxCoordinates := Vector3.compMul a.maxCoordinates scale }

/-- `ConvexMeshShape::getLocalBounds`: the bounds of the convex mesh with
`mScale` applied. -/
def ConvexMeshShape.getLocalBounds (s : ConvexMeshShape) : AABB :=
  (s.convexMesh.getBounds).applyScale s.scale

/-- The recoverable construction failure of `finalize()` (spec §4.1, §7):
a directed edge (given by its vertex pair) lacks a matching reverse edge or
has more than one candidate twin. -/
inductive ManifoldError where
  | missingOrDuplicateTwin : ℕ → ℕ → ManifoldError
deriving DecidableEq

/-- The directed edges of one face loop: one edge per consecutive vertex
pair, wrapping around. -/
def faceDirectedEdges (vs : List ℕ) : List (ℕ × ℕ) :=
  (List.range vs.length).map (fun k => (vs.getD k 0, vs.getD ((k + 1) % vs.length) 0))

/-- All directed edges synthesized from the face loops of a face-vertex
description. -/
def allDirectedEdges (faces : List (List ℕ)) : List (ℕ × ℕ) :=
  faces.flatMap faceDirectedEdges

/-- The number of candidate twins of a directed edge: directed edges carrying
the reversed vertex pair. -/
def twinCount (edges : List (ℕ × ℕ)) (e : ℕ × ℕ) : ℕ :=
  edges.countP (fun e2 => decide (e2.1 = e.2 ∧ e2.2 = e.1))

/-- The half-edge records of one face: origin vertex, twin (the position of
the reversed pair in the full directed-edge list), owning face, and `next`
along the face loop (`off` is the position of the face's first edge in the
full edge array). -/
def buildFaceEdges (allE : List (ℕ × ℕ)) (fIdx off : ℕ) (vs : List ℕ) : List Edge :=
  (List.range vs.length).map (fun k =>
    { vertexIndex := vs.getD k 0,
      twinEdgeIndex := allE.findIdx (fun e2 =>
        decide (e2.1 = vs.getD ((k + 1) % vs.length) 0 ∧ e2.2 = vs.getD k 0)),
      faceIndex := fIdx,
      nextEdgeIndex := off + (k + 1) % vs.length })

/-- The half-edge records of all faces, laid out face by face. -/
def buildEdges (allE : List (ℕ × ℕ)) : List (List ℕ) → ℕ → ℕ → List Edge
  | [], _, _ => []
  | vs :: rest, fIdx, off =>
    buildFaceEdges allE fIdx off vs ++ buildEdges allE rest (fIdx + 1) (off + vs.length)

/-- The face records, each holding the index of its first half-edge and its
vertex list. -/
def buildFaces : List (List ℕ) → ℕ → List Face
  | [], _ => []
  | vs :: rest, off => { edgeIndex := off, faceVertices := vs } :: buildFaces rest (off + vs.length)

/-- The vertex records: the supplied point index plus one emanating
half-edge. -/
def buildVertices (allE : List (ℕ × ℕ)) (pointIndices : List ℕ) : List Vertex :=
  pointIndices.enum.map (fun p =>
    { vertexPointIndex := p.2,
      edgeIndex := allE.findIdx (fun e => decide (e.1 = p.1)) })

/-- Modelled from the spec: `HalfEdgeStructure::init` — whose implementation
file is not part of this corpus (only its declaration in
`HalfEdgeStructure.h`) — as §4.1 describes `finalize()`: synthesize one
directed half-edge per consecutive vertex pair of each face, link `next`
along each face loop, and pair every directed edge with the unique reverse
edge as its twin; fail with a reported, recoverable ManifoldError if any
directed edge lacks a matching reverse edge or has more than one candidate
twin. -/
def finalize (pointIndices : List ℕ) (faces : List (List ℕ)) :
    Except ManifoldError HalfEdgeStructure :=
  let allE := allDirectedEdges faces
  match allE.find? (fun e => decide (twinCount allE e ≠ 1)) with
  | some e => Except.error (ManifoldError.missingOrDuplicateTwin e.1 e.2)
  | none => Except.ok
      { faces := buildFaces faces 0,
        vertices := buildVertices allE pointIndices,
        edges := buildEdges allE faces 0 0 }

/-- Coordinates of the unit cube: all sign combinations of `(±1, ±1, ±1)`. -/
def cubeCoords : List Vector3 :=
  [⟨-1, -1, -1⟩, ⟨1, -1, -1⟩, ⟨1, 1, -1⟩, ⟨-1, 1, -1⟩,
   ⟨-1, -1, 1⟩, ⟨1, -1, 1⟩, ⟨1, 1, 1⟩, ⟨-1, 1, 1⟩]

/-- Half-edge structure of the unit cube: six quadrilateral faces (CCW from
outside), one topology vertex per coordinate. The edge array is not consulted
by the queries under verification. -/
def cubeHalfEdgeStructure : HalfEdgeStructure :=
  { faces := [⟨0, [1, 2, 6, 5]⟩, ⟨0, [0, 4, 7, 3]⟩, ⟨0, [2, 3, 7, 6]⟩,
              ⟨0, [0, 1, 5, 4]⟩, ⟨0, [4, 5, 6, 7]⟩, ⟨0, [0, 3, 2, 1]⟩],
    vertices := (List.range 8).map (fun i => ⟨i, 0⟩),
    edges := [] }

/-- Outward unit face normals of the unit cube, in face order. -/
def cubeNormals : List Vector3 :=
  [⟨1, 0, 0⟩, ⟨-1, 0, 0⟩, ⟨0, 1, 0⟩, ⟨0, -1, 0⟩, ⟨0, 0, 1⟩, ⟨0, 0, -1⟩]

/-- The unit cube as a convex mesh. -/
def cubeMesh : ConvexMesh :=
  { vertices := cubeCoords, faceNormals := cubeNormals,
    halfEdgeStructure := cubeHalfEdgeStructure }

/-- The unit cube shape with identity scale. -/
def unitCubeShape : ConvexMeshShape := ⟨cubeMesh, ⟨1, 1, 1⟩⟩

/-- The unit cube shape with scale `(2, 1, 1)`. -/
def cubeShape211 : ConvexMeshShape := ⟨cubeMesh, ⟨2, 1, 1⟩⟩

/-- A tetrahedron with vertices at the origin and the three unit points. -/
def tetMesh : ConvexMesh :=
  { vertices := [⟨0, 0, 0⟩, ⟨1, 0, 0⟩, ⟨0, 1, 0⟩, ⟨0, 0, 1⟩],
    faceNormals := [⟨0, 0, -1⟩, ⟨0, -1, 0⟩, ⟨-1, 0, 0⟩, ⟨1, 1, 1⟩],
    halfEdgeStructure :=
      { faces := [⟨0, [0, 2, 1]⟩, ⟨0, [0, 1, 3]⟩, ⟨0, [0, 3, 2]⟩, ⟨0, [1, 2, 3]⟩],
        vertices := [⟨0, 0⟩, ⟨1, 0⟩, ⟨2, 0⟩, ⟨3, 0⟩],
        edges := [] } }

/-- The tetrahedron with the non-uniform scale `(1, 10, 1)`. -/
def tetShape1101 : ConvexMeshShape := ⟨tetMesh, ⟨1, 10, 1⟩⟩

/-- The tetrahedron translated by `(1, 1, 1)` (all coordinates positive),
with identity scale. -/
def shiftedTetShape : ConvexMeshShape :=
  ⟨{ vertices := [⟨1, 1, 1⟩, ⟨2, 1, 1⟩, ⟨1, 2, 1⟩, ⟨1, 1, 2⟩],
     faceNormals := [⟨0, 0, -1⟩, ⟨0, -1, 0⟩, ⟨-1, 0, 0⟩, ⟨1, 1, 1⟩],
     halfEdgeStructure :=
       { faces := [⟨0, [0, 2, 1]⟩, ⟨0, [0, 1, 3]⟩, ⟨0, [0, 3, 2]⟩, ⟨0, [1, 2, 3]⟩],
         vertices := [⟨0, 0⟩, ⟨1, 0⟩, ⟨2, 0⟩, ⟨3, 0⟩],
         edges := [] } }, ⟨1, 1, 1⟩⟩

/-- Characterization of the support scan loop: either no vertex strictly
beats the incoming running maximum (the accumulator is returned unchanged and
every dot product is at most the incoming maximum), or the loop returns the
first vertex attaining the maximum dot product, which strictly beats the
incoming maximum. -/
theorem supportLoopAux_spec (d : Vector3) :
    ∀ (l : List Vector3) (i : ℕ) (m : ℚ) (j : ℕ),
      (supportLoopAux d l i (m, j) = (m, j) ∧
        ∀ k (h : k < l.length), Vector3.dot d (l.get ⟨k, h⟩) ≤ m) ∨
      (∃ k, ∃ h : k < l.length,
        supportLoopAux d l i (m, j) = (Vector3.dot d (l.get ⟨k, h⟩), i + k) ∧
        m < Vector3.dot d (l.get ⟨k, h⟩) ∧
        (∀ k2 (h2 : k2 < l.length),
          Vector3.dot d (l.get ⟨k2, h2⟩) ≤ Vector3.dot d (l.get ⟨k, h⟩)) ∧
        (∀ k2 (h2 : k2 < l.length), k2 < k →
          Vector3.dot d (l.get ⟨k2, h2⟩) < Vector3.dot d (l.get ⟨k, h⟩))) := by
  intro l
  induction l with
  | nil =>
    intro i m j
    exact Or.inl ⟨rfl, fun k h => absurd h (Nat.not_lt_zero k)⟩
  | cons v rest ih =>
    intro i m j
    by_cases hv : m < Vector3.dot d v
    · have hstep : supportLoopAux d (v :: rest) i (m, j)
          = supportLoopAux d rest (i + 1) (Vector3.dot d v, i) := by
        simp [supportLoopAux, hv]
      rcases ih (i + 1) (Vector3.dot d v) i with ⟨heq, hle⟩ | ⟨k, hk, heq, hgt, hmax, hfirst⟩
      · refine Or.inr ⟨0, Nat.succ_pos _, ?_, ?_, ?_, ?_⟩
        · rw [hstep, heq]; simp
        · simpa using hv
        · intro k2 h2
          cases k2 with
          | zero => simp
          | succ k3 => simpa using hle k3 (Nat.lt_of_succ_lt_succ h2)
        · intro k2 h2 hlt
          exact absurd hlt (Nat.not_lt_zero k2)
      · refine Or.inr ⟨k + 1, Nat.succ_lt_succ hk, ?_, ?_, ?_, ?_⟩
        · rw [hstep, heq]
          simp only [List.get_cons_succ]
          refine Prod.ext rfl ?_
          omega
        · simp only [List.get_cons_succ]
          exact lt_trans hv hgt
        · intro k2 h2
          cases k2 with
          | zero =>
            simp only [List.get_cons_zero, List.get_cons_succ]
            exact le_of_lt hgt
          | succ k3 =>
            simp only [List.get_cons_succ]
            exact hmax k3 (Nat.lt_of_succ_lt_succ h2)
        · intro k2 h2 hlt
          cases k2 with
          | zero =>
            simp only [List.get_cons_zero, List.get_cons_succ]
            exact hgt
          | succ k3 =>
            simp only [List.get_cons_succ]
            exact hfirst k3 (Nat.lt_of_succ_lt_succ h2) (Nat.lt_of_succ_lt_succ hlt)
    · have hle2 : Vector3.dot d v ≤ m := le_of_not_lt hv
      have hstep : supportLoopAux d (v :: rest) i (m, j)
          = supportLoopAux d rest (i + 1) (m, j) := by
        simp [supportLoopAux, hv]
      rcases ih (i + 1) m j with ⟨heq, hle⟩ | ⟨k, hk, heq, hgt, hmax, hfirst⟩
      · refine Or.inl ⟨by rw [hstep, heq], ?_⟩
        intro k2 h2
        cases k2 with
        | zero => simpa using hle2
        | succ k3 => simpa using hle k3 (Nat.lt_of_succ_lt_succ h2)
      · refine Or.inr ⟨k + 1, Nat.succ_lt_succ hk, ?_, ?_, ?_, ?_⟩
        · rw [hstep, heq]
          simp only [List.get_cons_succ]
          refine Prod.ext rfl ?_
          omega
        · simp only [List.get_cons_succ]
          exact hgt
        · intro k2 h2
          cases k2 with
          | zero =>
            simp only [List.get_cons_zero, List.get_cons_succ]
            exact le_trans hle2 (le_of_lt hgt)
          | succ k3 =>
            simp only [List.get_cons_succ]
            exact hmax k3 (Nat.lt_of_succ_lt_succ h2)
        · intro k2 h2 hlt
          cases k2 with
          | zero =>
            simp only [List.get_cons_zero, List.get_cons_succ]
            exact lt_of_le_of_lt hle2 hgt
          | succ k3 =>
            simp only [List.get_cons_succ]
            exact hfirst k3 (Nat.lt_of_succ_lt_succ h2) (Nat.lt_of_succ_lt_succ hlt)

/-- The full scan selects an in-range index whose dot product is maximal, and
every earlier vertex has a strictly smaller dot product, provided the mesh is
nonempty and no dot product lies below `DECIMAL_SMALLEST`. -/
theorem supportLoop_first_argmax (d : Vector3) (verts : List Vector3)
    (hne : 0 < verts.length)
    (hub : ∀ k (h : k < verts.length),
      DECIMAL_SMALLEST ≤ Vector3.dot d (verts.get ⟨k, h⟩)) :
    ∃ k, ∃ h : k < verts.length,
      (supportLoop d verts).2 = k ∧
      (∀ k2 (h2 : k2 < verts.length),
        Vector3.dot d (verts.get ⟨k2, h2⟩) ≤ Vector3.dot d (verts.get ⟨k, h⟩)) ∧
      (∀ k2 (h2 : k2 < verts.length), k2 < k →
        Vector3.dot d (verts.get ⟨k2, h2⟩) < Vector3.dot d (verts.get ⟨k, h⟩)) := by
  rcases supportLoopAux_spec d verts 0 DECIMAL_SMALLEST 0 with
    ⟨heq, hle⟩ | ⟨k, hk, heq, _, hmax, hfirst⟩
  · refine ⟨0, hne, ?_, ?_, ?_⟩
    · unfold supportLoop
      rw [heq]
    · intro k2 h2
      exact le_trans (hle k2 h2) (hub 0 hne)
    · intro k2 h2 hklt
      exact absurd hklt (Nat.not_lt_zero k2)
  · refine ⟨k, hk, ?_, hmax, hfirst⟩
    unfold supportLoop
    rw [heq]
    simp

/-- Bridge from a membership bound to an index bound. -/
theorem mem_bound_of_index_bound {verts : List Vector3} {d : Vector3} {b : ℚ}
    (hub : ∀ v ∈ verts, b ≤ Vector3.dot d v) :
    ∀ k (h : k < verts.length), b ≤ Vector3.dot d (verts.get ⟨k, h⟩) :=
  fun _ h => hub _ (verts.get_mem _ h)

/-- C1 (counterexample): the claim as stated is false on the code. For the
tetrahedron scaled non-uniformly by `(1, 10, 1)` and direction `(2, 1, 0)`,
the point returned by `getLocalSupportPointWithoutMargin` does not attain the
maximum of `dot(d, p)` over the scaled vertex points: the code maximizes the
dot product over the pre-scale vertices and only then applies the scale. -/
theorem supportPoint_scaled_max_counterexample :
    ∃ p ∈ scaledPoints tetShape1101,
      Vector3.dot ⟨2, 1, 0⟩ (tetShape1101.getLocalSupportPointWithoutMargin ⟨2, 1, 0⟩) <
        Vector3.dot ⟨2, 1, 0⟩ p := by
  refine ⟨⟨0, 10, 0⟩, ?_, ?_⟩
  · norm_num [scaledPoints, tetShape1101, tetMesh, Vector3.compMul]
  · norm_num [ConvexMeshShape.getLocalSupportPointWithoutMargin, supportIndex, supportLoop,
      supportLoopAux, tetShape1101, tetMesh, Vector3.dot, Vector3.compMul, DECIMAL_SMALLEST,
      ConvexMesh.getVertex]

/-- C1 (amended): for every finalized convex mesh and every direction `d`,
`supportPoint(d)` returns the scaled image of a pre-scale vertex that
maximizes `dot(d, vertex)` over all pre-scale vertices of the shape
(the mesh being nonempty and no dot product lying below the loop's
`DECIMAL_SMALLEST` seed). -/
theorem supportPoint_prescale_max (s : ConvexMeshShape) (d : Vector3)
    (hne : 0 < s.convexMesh.getNbVertices)
    (hub : ∀ v ∈ s.convexMesh.vertices, DECIMAL_SMALLEST ≤ Vector3.dot d v) :
    ∃ i, i < s.convexMesh.getNbVertices ∧
      s.getLocalSupportPointWithoutMargin d
        = Vector3.compMul (s.convexMesh.getVertex i) s.scale ∧
      ∀ v ∈ s.convexMesh.vertices,
        Vector3.dot d v ≤ Vector3.dot d (s.convexMesh.getVertex i) := by
  obtain ⟨k, hk, hres, hmax, _⟩ :=
    supportLoop_first_argmax d s.convexMesh.vertices hne (mem_bound_of_index_bound hub)
  have hgetk : s.convexMesh.getVertex k = s.convexMesh.vertices.get ⟨k, hk⟩ :=
    List.getD_eq_get _ _ hk
  refine ⟨k, hk, ?_, ?_⟩
  · unfold ConvexMeshShape.getLocalSupportPointWithoutMargin supportIndex
    rw [hres]
  · intro v hv
    obtain ⟨⟨k2, h2⟩, rfl⟩ := List.mem_iff_get.mp hv
    rw [hgetk]
    exact hmax k2 h2

/-- Witness for C1 (amended), at the unit cube and direction `(1, 0, 0)`. -/
theorem supportPoint_prescale_max_witness :
    ∃ i, i < unitCubeShape.convexMesh.getNbVertices ∧
      unitCubeShape.getLocalSupportPointWithoutMargin ⟨1, 0, 0⟩
        = Vector3.compMul (unitCubeShape.convexMesh.getVertex i) unitCubeShape.scale ∧
      ∀ v ∈ unitCubeShape.convexMesh.vertices,
        Vector3.dot ⟨1, 0, 0⟩ v ≤
          Vector3.dot ⟨1, 0, 0⟩ (unitCubeShape.convexMesh.getVertex i) :=
  supportPoint_prescale_max unitCubeShape ⟨1, 0, 0⟩
    (by norm_num [unitCubeShape, cubeMesh, ConvexMesh.getNbVertices, cubeCoords])
    (by
      intro v hv
      simp only [unitCubeShape, cubeMesh, cubeCoords] at hv
      fin_cases hv <;> norm_num [Vector3.dot, DECIMAL_SMALLEST])

/-- C6: the scan tracks the running maximum with a strict comparison, so the
selected index is in range, attains the maximum dot product, and every
earlier vertex has a strictly smaller dot product (later ties are ignored);
the returned point is the scaled vertex at that index. Determinism across
repeated identical queries holds because the result is a function of the
shape and direction alone. -/
theorem supportIndex_first_of_ties (s : ConvexMeshShape) (d : Vector3)
    (hne : 0 < s.convexMesh.getNbVertices)
    (hub : ∀ v ∈ s.convexMesh.vertices, DECIMAL_SMALLEST ≤ Vector3.dot d v) :
    supportIndex s d < s.convexMesh.getNbVertices ∧
    (∀ v ∈ s.convexMesh.vertices,
      Vector3.dot d v ≤ Vector3.dot d (s.convexMesh.getVertex (supportIndex s d))) ∧
    (∀ k, k < supportIndex s d →
      Vector3.dot d (s.convexMesh.getVertex k) <
        Vector3.dot d (s.convexMesh.getVertex (supportIndex s d))) ∧
    s.getLocalSupportPointWithoutMargin d
      = Vector3.compMul (s.convexMesh.getVertex (supportIndex s d)) s.scale := by
  obtain ⟨k, hk, hres, hmax, hfirst⟩ :=
    supportLoop_first_argmax d s.convexMesh.vertices hne (mem_bound_of_index_bound hub)
  have hik : supportIndex s d = k := hres
  have hgetk : s.convexMesh.getVertex k = s.convexMesh.vertices.get ⟨k, hk⟩ :=
    List.getD_eq_get _ _ hk
  refine ⟨by rw [hik]; exact hk, ?_, ?_, rfl⟩
  · intro v hv
    obtain ⟨⟨k2, h2⟩, rfl⟩ := List.mem_iff_get.mp hv
    rw [hik, hgetk]
    exact hmax k2 h2
  · intro k2 hk2
    rw [hik] at hk2
    have h2 : k2 < s.convexMesh.vertices.length := Nat.lt_trans hk2 hk
    have hgetk2 : s.convexMesh.getVertex k2 = s.convexMesh.vertices.get ⟨k2, h2⟩ :=
      List.getD_eq_get _ _ h2
    rw [hik, hgetk, hgetk2]
    exact hfirst k2 h2 hk2

/-- Witness for C6, at the unit cube and direction `(1, 0, 0)`: the selected
vertex is the first of the four tied vertices with `x = 1`, at index 1. -/
theorem supportIndex_first_of_ties_witness :
    (supportIndex unitCubeShape ⟨1, 0, 0⟩ < unitCubeShape.convexMesh.getNbVertices ∧
      (∀ v ∈ unitCubeShape.convexMesh.vertices,
        Vector3.dot ⟨1, 0, 0⟩ v ≤ Vector3.dot ⟨1, 0, 0⟩
          (unitCubeShape.convexMesh.getVertex (supportIndex unitCubeShape ⟨1, 0, 0⟩))) ∧
      (∀ k, k < supportIndex unitCubeShape ⟨1, 0, 0⟩ →
        Vector3.dot ⟨1, 0, 0⟩ (unitCubeShape.convexMesh.getVertex k) <
          Vector3.dot ⟨1, 0, 0⟩
            (unitCubeShape.convexMesh.getVertex (supportIndex unitCubeShape ⟨1, 0, 0⟩))) ∧
      unitCubeShape.getLocalSupportPointWithoutMargin ⟨1, 0, 0⟩
        = Vector3.compMul
            (unitCubeShape.convexMesh.getVertex (supportIndex unitCubeShape ⟨1, 0, 0⟩))
            unitCubeShape.scale) ∧
    supportIndex unitCubeShape ⟨1, 0, 0⟩ = 1 :=
  ⟨supportIndex_first_of_ties unitCubeShape ⟨1, 0, 0⟩
      (by norm_num [unitCubeShape, cubeMesh, ConvexMesh.getNbVertices, cubeCoords])
      (by
        intro v hv
        simp only [unitCubeShape, cubeMesh, cubeCoords] at hv
        fin_cases hv <;> norm_num [Vector3.dot, DECIMAL_SMALLEST]),
    by
      norm_num [supportIndex, supportLoop, supportLoopAux, unitCubeShape, cubeMesh,
        cubeCoords, Vector3.dot, DECIMAL_SMALLEST]⟩

/-- The loop stays at `none` once an early exit has occurred. -/
theorem raycastLoop_none (m : ConvexMesh) (p1 dir : Vector3) (fs : List ℕ) :
    raycastLoop m p1 dir fs none = none := by
  induction fs with
  | nil => rfl
  | cons f rest ih => simpa [raycastLoop] using ih

/-- Unfolding one iteration of the loop from a live state. -/
theorem raycastLoop_cons (m : ConvexMesh) (p1 dir : Vector3) (f : ℕ) (fs : List ℕ)
    (st : RayClipState) :
    raycastLoop m p1 dir (f :: fs) (some st)
      = raycastLoop m p1 dir fs (raycastFaceStep m p1 dir st f) := by
  rfl

/-- C3: if the face-clipping loop of `raycast` runs to completion with final
state `st`, then `raycast` returns no hit when the entering flag was never
set, and otherwise returns the hit with fraction `tMin`, point
`origin + tMin * direction` and the last recorded candidate face normal. -/
theorem raycast_result (s : ConvexMeshShape) (r : Ray) (st : RayClipState)
    (h : raycastClip s.convexMesh r.point1 (Vector3.sub r.point2 r.point1) r.maxFraction
      = some st) :
    (st.isIntersectionFound = false → s.raycast r = none) ∧
    (st.isIntersectionFound = true → s.raycast r =
      some { hitFraction := st.tMin,
             worldPoint := Vector3.add r.point1
               (Vector3.smul st.tMin (Vector3.sub r.point2 r.point1)),
             worldNormal := st.currentFaceNormal }) := by
  constructor <;> intro hf <;> simp [ConvexMeshShape.raycast, h, hf]

/-- Witness for C3: the spec's raycast example — unit cube, ray from
`(-5,0,0)` to `(5,0,0)` with `maxFraction = 1` — hits with fraction `2/5`,
point `(-1,0,0)` and normal `(-1,0,0)`. -/
theorem raycast_result_witness :
    unitCubeShape.raycast { point1 := ⟨-5, 0, 0⟩, point2 := ⟨5, 0, 0⟩, maxFraction := 1 }
      = some { hitFraction := 2/5, worldPoint := ⟨-1, 0, 0⟩, worldNormal := ⟨-1, 0, 0⟩ } := by
  have hrange : List.range 6 = [0, 1, 2, 3, 4, 5] := rfl
  have hclip : raycastClip unitCubeShape.convexMesh ⟨-5, 0, 0⟩
      (Vector3.sub ⟨5, 0, 0⟩ ⟨-5, 0, 0⟩) 1
      = some { tMin := 2/5, tMax := 3/5, currentFaceNormal := ⟨-1, 0, 0⟩,
               isIntersectionFound := true } := by
    norm_num [raycastClip, raycastLoop, ConvexMesh.getNbFaces, HalfEdgeStructure.getNbFaces,
      unitCubeShape, cubeMesh, cubeHalfEdgeStructure, cubeNormals, cubeCoords, hrange,
      raycastFaceStep, faceDenom, faceDist, ConvexMesh.getFaceNormal, ConvexMesh.facePointAt,
      ConvexMesh.getVertex, HalfEdgeStructure.faceD, HalfEdgeStructure.vertexD,
      Vector3.sub, Vector3.dot]
  have h := (raycast_result unitCubeShape
    { point1 := ⟨-5, 0, 0⟩, point2 := ⟨5, 0, 0⟩, maxFraction := 1 } _ hclip).2 rfl
  rw [h]
  norm_num [Vector3.add, Vector3.smul, Vector3.sub]

/-- If some face of the list is parallel to the ray with the origin strictly
outside its half-space, the loop returns `none` no matter what happens on the
other faces. -/
theorem raycastLoop_parallel_outside (m : ConvexMesh) (p1 dir : Vector3) :
    ∀ (fs : List ℕ) (st : RayClipState),
      (∃ f ∈ fs, faceDenom m dir f = 0 ∧ faceDist m p1 f < 0) →
      raycastLoop m p1 dir fs (some st) = none := by
  intro fs
  induction fs with
  | nil =>
    intro st h
    simp at h
  | cons f rest ih =>
    intro st h
    obtain ⟨g, hg, hden, hdist⟩ := h
    rcases List.mem_cons.mp hg with rfl | hgrest
    · have hstep : raycastFaceStep m p1 dir st g = none := by
        simp [raycastFaceStep, hden, hdist]
      rw [raycastLoop_cons, hstep]
      exact raycastLoop_none m p1 dir rest
    · rw [raycastLoop_cons]
      cases hstep : raycastFaceStep m p1 dir st f with
      | none => exact raycastLoop_none m p1 dir rest
      | some st2 => exact ih st2 ⟨g, hgrest, hden, hdist⟩

/-- C5: if any face plane is parallel to the ray (`denom = 0`) while the ray
origin is strictly outside that face's half-space (`dist < 0`), `raycast`
returns no hit, regardless of the remaining faces. -/
theorem raycast_parallel_outside_misses (s : ConvexMeshShape) (r : Ray)
    (h : ∃ f, f < s.convexMesh.getNbFaces ∧
      faceDenom s.convexMesh (Vector3.sub r.point2 r.point1) f = 0 ∧
      faceDist s.convexMesh r.point1 f < 0) :
    s.raycast r = none := by
  obtain ⟨f, hf, hden, hdist⟩ := h
  have hclip : raycastClip s.convexMesh r.point1 (Vector3.sub r.point2 r.point1)
      r.maxFraction = none := by
    unfold raycastClip
    exact raycastLoop_parallel_outside s.convexMesh r.point1 _ _ _
      ⟨f, List.mem_range.mpr hf, hden, hdist⟩
  simp [ConvexMeshShape.raycast, hclip]

/-- Witness for C5: a ray parallel to, and beyond, the `+y` face of the unit
cube returns no hit. -/
theorem raycast_parallel_outside_misses_witness :
    unitCubeShape.raycast { point1 := ⟨0, 5, 0⟩, point2 := ⟨1, 5, 0⟩, maxFraction := 1 }
      = none :=
  raycast_parallel_outside_misses unitCubeShape
    { point1 := ⟨0, 5, 0⟩, point2 := ⟨1, 5, 0⟩, maxFraction := 1 }
    ⟨2,
      by norm_num [ConvexMesh.getNbFaces, HalfEdgeStructure.getNbFaces, unitCubeShape,
        cubeMesh, cubeHalfEdgeStructure],
      by norm_num [faceDenom, ConvexMesh.getFaceNormal, unitCubeShape, cubeMesh,
        cubeNormals, Vector3.sub, Vector3.dot],
      by norm_num [faceDist, ConvexMesh.getFaceNormal, ConvexMesh.facePointAt,
        ConvexMesh.getVertex, HalfEdgeStructure.faceD, HalfEdgeStructure.vertexD,
        unitCubeShape, cubeMesh, cubeNormals, cubeCoords, cubeHalfEdgeStructure,
        Vector3.dot]⟩

/-- With a zero ray direction every face takes the `denom == 0` branch, which
never changes the state: the loop either exits early with no hit or returns
the state it was given. -/
theorem raycastLoop_zero_dir (m : ConvexMesh) (p1 : Vector3) :
    ∀ (fs : List ℕ) (st : RayClipState),
      raycastLoop m p1 Vector3.zeroVec fs (some st) = none ∨
      raycastLoop m p1 Vector3.zeroVec fs (some st) = some st := by
  intro fs
  induction fs with
  | nil => intro st; exact Or.inr rfl
  | cons f rest ih =>
    intro st
    have hden : faceDenom m Vector3.zeroVec f = 0 := by
      simp [faceDenom, Vector3.dot, Vector3.zeroVec]
    by_cases hdist : faceDist m p1 f < 0
    · have hstep : raycastFaceStep m p1 Vector3.zeroVec st f = none := by
        simp [raycastFaceStep, hden, hdist]
      rw [raycastLoop_cons, hstep]
      exact Or.inl (raycastLoop_none m p1 Vector3.zeroVec rest)
    · have hstep : raycastFaceStep m p1 Vector3.zeroVec st f = some st := by
        simp [raycastFaceStep, hden, hdist]
      rw [raycastLoop_cons, hstep]
      exact ih st

/-- C8: a ray whose direction is zero-length (`point2 = point1`) always
returns a well-typed "no hit": every face takes the `denom == 0` branch, so
the call either exits at the first face with negative `dist` or completes
the loop with the entering flag still unset. No division by the zero
denominator is ever evaluated. -/
theorem raycast_zero_direction_no_hit (s : ConvexMeshShape) (p1 : Vector3)
    (maxFraction : ℚ) :
    s.raycast { point1 := p1, point2 := p1, maxFraction := maxFraction } = none := by
  have hdir : Vector3.sub p1 p1 = Vector3.zeroVec := by
    simp [Vector3.sub, Vector3.zeroVec]
  have hinit := raycastLoop_zero_dir s.convexMesh p1
    (List.range s.convexMesh.getNbFaces)
    { tMin := 0, tMax := maxFraction, currentFaceNormal := Vector3.zeroVec,
      isIntersectionFound := false }
  rcases hinit with hnone | hsome
  · have hclip : raycastClip s.convexMesh p1 Vector3.zeroVec maxFraction = none := hnone
    simp [ConvexMeshShape.raycast, hdir, hclip]
  · have hclip : raycastClip s.convexMesh p1 Vector3.zeroVec maxFraction
        = some { tMin := 0, tMax := maxFraction, currentFaceNormal := Vector3.zeroVec,
                 isIntersectionFound := false } := hsome
    simp [ConvexMeshShape.raycast, hdir, hclip]

/-- C4: `testPointInside(p)` returns true if and only if for every face the
signed distance `dot(normal, p) - dot(normal, facePoint)` is non-positive;
in particular a point on a face plane (signed distance zero, non-positive on
all faces) is inside. -/
theorem testPointInside_iff (s : ConvexMeshShape) (p : Vector3) :
    s.testPointInside p = true ↔
      ∀ f, f < s.convexMesh.getNbFaces →
        Vector3.dot (s.convexMesh.getFaceNormal f) p -
          Vector3.dot (s.convexMesh.getFaceNormal f) (s.convexMesh.facePointAt f) ≤ 0 := by
  unfold ConvexMeshShape.testPointInside
  rw [List.all_eq_true]
  constructor
  · intro h f hf
    have hmem := h f (List.mem_range.mpr hf)
    by_contra hgt
    push_neg at hgt
    rw [if_pos (by simpa [computePointToPlaneDistance] using hgt)] at hmem
    exact Bool.false_ne_true hmem
  · intro h f hf
    rw [if_neg]
    simp only [not_lt, computePointToPlaneDistance]
    exact h f (List.mem_range.mp hf)

/-- Witness for C4: the boundary point `(1, 0, 0)` of the unit cube is
inside. -/
theorem testPointInside_iff_witness :
    unitCubeShape.testPointInside ⟨1, 0, 0⟩ = true :=
  (testPointInside_iff unitCubeShape ⟨1, 0, 0⟩).mpr (by
    intro f hf
    have h6 : f < 6 := hf
    interval_cases f <;>
      norm_num [ConvexMesh.getFaceNormal, ConvexMesh.facePointAt, ConvexMesh.getVertex,
        HalfEdgeStructure.faceD, HalfEdgeStructure.vertexD, unitCubeShape, cubeMesh,
        cubeNormals, cubeCoords, cubeHalfEdgeStructure, Vector3.dot])

/-- Folding `min` distributes over multiplication by a nonnegative factor. -/
theorem foldl_min_mul (c : ℚ) (hc : 0 ≤ c) :
    ∀ (l : List ℚ) (a : ℚ),
      List.foldl min (a * c) (l.map (fun q => q * c)) = List.foldl min a l * c := by
  intro l
  induction l with
  | nil => intro a; rfl
  | cons x xs ih =>
    intro a
    simp only [List.map_cons, List.foldl_cons]
    rw [← min_mul_of_nonneg a x hc]
    exact ih (min a x)

/-- Folding `max` distributes over multiplication by a nonnegative factor. -/
theorem foldl_max_mul (c : ℚ) (hc : 0 ≤ c) :
    ∀ (l : List ℚ) (a : ℚ),
      List.foldl max (a * c) (l.map (fun q => q * c)) = List.foldl max a l * c := by
  intro l
  induction l with
  | nil => intro a; rfl
  | cons x xs ih =>
    intro a
    simp only [List.map_cons, List.foldl_cons]
    rw [← max_mul_of_nonneg a x hc]
    exact ih (max a x)

/-- `listMin` commutes with a nonnegative scale factor. -/
theorem listMin_map_mul (c : ℚ) (hc : 0 ≤ c) (l : List ℚ) :
    listMin (l.map (fun q => q * c)) = listMin l * c := by
  cases l with
  | nil => simp [listMin]
  | cons x xs => simpa [listMin] using foldl_min_mul c hc xs x

/-- `listMax` commutes with a nonnegative scale factor. -/
theorem listMax_map_mul (c : ℚ) (hc : 0 ≤ c) (l : List ℚ) :
    listMax (l.map (fun q => q * c)) = listMax l * c := by
  cases l with
  | nil => simp [listMax]
  | cons x xs => simpa [listMax] using foldl_max_mul c hc xs x

/-- C7: with the (per spec) nonnegative scale, `getLocalBounds` returns the
box whose minimum and maximum are the componentwise minimum and maximum over
all scaled vertex coordinates. -/
theorem getLocalBounds_componentwise (s : ConvexMeshShape)
    (hx : 0 ≤ s.scale.x) (hy : 0 ≤ s.scale.y) (hz : 0 ≤ s.scale.z) :
    s.getLocalBounds
      = { minCoordinates := ⟨listMin ((scaledPoints s).map Vector3.x),
                             listMin ((scaledPoints s).map Vector3.y),
                             listMin ((scaledPoints s).map Vector3.z)⟩,
          maxCoordinates := ⟨listMax ((scaledPoints s).map Vector3.x),
                             listMax ((scaledPoints s).map Vector3.y),
                             listMax ((scaledPoints s).map Vector3.z)⟩ } := by
  have hmapx : (scaledPoints s).map Vector3.x
      = (s.convexMesh.vertices.map Vector3.x).map (fun q => q * s.scale.x) := by
    simp only [scaledPoints, List.map_map]
    rfl
  have hmapy : (scaledPoints s).map Vector3.y
      = (s.convexMesh.vertices.map Vector3.y).map (fun q => q * s.scale.y) := by
    simp only [scaledPoints, List.map_map]
    rfl
  have hmapz : (scaledPoints s).map Vector3.z
      = (s.convexMesh.vertices.map Vector3.z).map (fun q => q * s.scale.z) := by
    simp only [scaledPoints, List.map_map]
    rfl
  rw [hmapx, hmapy, hmapz,
    listMin_map_mul _ hx, listMin_map_mul _ hy, listMin_map_mul _ hz,
    listMax_map_mul _ hx, listMax_map_mul _ hy, listMax_map_mul _ hz]
  rfl

/-- Witness for C7: the unit cube scaled by `(2, 1, 1)` has local bounds
`x ∈ [-2, 2]`, `y ∈ [-1, 1]`, `z ∈ [-1, 1]`, and they agree with the
componentwise extrema of the scaled vertices. -/
theorem getLocalBounds_componentwise_witness :
    cubeShape211.getLocalBounds
      = { minCoordinates := ⟨-2, -1, -1⟩, maxCoordinates := ⟨2, 1, 1⟩ } ∧
    cubeShape211.getLocalBounds
      = { minCoordinates := ⟨listMin ((scaledPoints cubeShape211).map Vector3.x),
                             listMin ((scaledPoints cubeShape211).map Vector3.y),
                             listMin ((scaledPoints cubeShape211).map Vector3.z)⟩,
          maxCoordinates := ⟨listMax ((scaledPoints cubeShape211).map Vector3.x),
                             listMax ((scaledPoints cubeShape211).map Vector3.y),
                             listMax ((scaledPoints cubeShape211).map Vector3.z)⟩ } :=
  ⟨by
    norm_num [ConvexMeshShape.getLocalBounds, ConvexMesh.getBounds, AABB.applyScale,
      Vector3.compMul, listMin, listMax, cubeShape211, cubeMesh, cubeCoords],
    getLocalBounds_componentwise cubeShape211 (by norm_num [cubeShape211])
      (by norm_num [cubeShape211]) (by norm_num [cubeShape211])⟩

/-- C9: each accessor returns the stored record unchanged for an in-range
index and hits its assertion (modelled as `none`, an immediate abort) for any
index at or beyond the corresponding count. -/
theorem accessor_range_contract (s : HalfEdgeStructure) (i : ℕ) :
    ((s.getNbFaces ≤ i → s.getFace i = none) ∧
      ∀ h : i < s.getNbFaces, s.getFace i = some (s.faces.get ⟨i, h⟩)) ∧
    ((s.getNbHalfEdges ≤ i → s.getHalfEdge i = none) ∧
      ∀ h : i < s.getNbHalfEdges, s.getHalfEdge i = some (s.edges.get ⟨i, h⟩)) ∧
    ((s.getNbVertices ≤ i → s.getVertex i = none) ∧
      ∀ h : i < s.getNbVertices, s.getVertex i = some (s.vertices.get ⟨i, h⟩)) := by
  refine ⟨⟨?_, ?_⟩, ⟨?_, ?_⟩, ⟨?_, ?_⟩⟩ <;> intro h <;>
    simp [HalfEdgeStructure.getFace, HalfEdgeStructure.getHalfEdge,
      HalfEdgeStructure.getVertex, HalfEdgeStructure.getNbFaces,
      HalfEdgeStructure.getNbHalfEdges, HalfEdgeStructure.getNbVertices,
      Nat.not_lt.mpr, h, Nat.not_lt_of_le h] <;>
    exact h

/-- Witness for C9: in-range and out-of-range accessor calls on the unit
cube's half-edge structure. -/
theorem accessor_range_contract_witness :
    cubeHalfEdgeStructure.getFace 0 = some { edgeIndex := 0, faceVertices := [1, 2, 6, 5] } ∧
    cubeHalfEdgeStructure.getFace 6 = none ∧
    cubeHalfEdgeStructure.getVertex 99 = none ∧
    cubeHalfEdgeStructure.getHalfEdge 0 = none := by
  refine ⟨?_, ?_, ?_, ?_⟩
  · have h := (accessor_range_contract cubeHalfEdgeStructure 0).1.2 (by decide)
    rw [h]
    rfl
  · exact (accessor_range_contract cubeHalfEdgeStructure 6).1.1 (by decide)
  · exact (accessor_range_contract cubeHalfEdgeStructure 99).2.2.1 (by decide)
  · exact (accessor_range_contract cubeHalfEdgeStructure 0).2.1.1 (by decide)

/-- The first component of the scan accumulator is the fold of `max` over the
dot products, seeded with the incoming running maximum. -/
theorem supportLoopAux_fst (d : Vector3) :
    ∀ (l : List Vector3) (i : ℕ) (m : ℚ) (j : ℕ),
      (supportLoopAux d l i (m, j)).1
        = List.foldl (fun a v => max a (Vector3.dot d v)) m l := by
  intro l
  induction l with
  | nil => intro i m j; rfl
  | cons v rest ih =>
    intro i m j
    by_cases hv : m < Vector3.dot d v
    · have hm : max m (Vector3.dot d v) = Vector3.dot d v := max_eq_right (le_of_lt hv)
      simp [supportLoopAux, hv, ih, List.foldl_cons, hm]
    · have hm : max m (Vector3.dot d v) = m := max_eq_left (le_of_not_lt hv)
      simp [supportLoopAux, hv, ih, List.foldl_cons, hm]

/-- A bound is below the fold of `max` over dot products exactly when it is
below the seed or below some dot product of the list. -/
theorem le_foldl_max_dot (d : Vector3) (b : ℚ) :
    ∀ (l : List Vector3) (m : ℚ),
      b ≤ List.foldl (fun a v => max a (Vector3.dot d v)) m l ↔
        b ≤ m ∨ ∃ v ∈ l, b ≤ Vector3.dot d v := by
  intro l
  induction l with
  | nil => intro m; simp
  | cons v rest ih =>
    intro m
    rw [List.foldl_cons, ih]
    simp only [le_max_iff, List.mem_cons]
    constructor
    · rintro ((hm | hv) | ⟨w, hw, hbw⟩)
      · exact Or.inl hm
      · exact Or.inr ⟨v, Or.inl rfl, hv⟩
      · exact Or.inr ⟨w, Or.inr hw, hbw⟩
    · rintro (hm | ⟨w, (rfl | hw), hbw⟩)
      · exact Or.inl (Or.inl hm)
      · exact Or.inl (Or.inr hbw)
      · exact Or.inr ⟨w, hw, hbw⟩

/-- C10: the assertion `maxDotProduct >= 0` at the end of the support scan
holds exactly when some vertex projects non-negatively onto the query
direction; in particular it fails whenever every vertex has a strictly
negative dot product with the direction. -/
theorem supportAssert_iff (s : ConvexMeshShape) (d : Vector3) :
    supportAssertHolds s d = true ↔
      ∃ v ∈ s.convexMesh.vertices, 0 ≤ Vector3.dot d v := by
  have hS : ¬ (0 : ℚ) ≤ DECIMAL_SMALLEST := by norm_num [DECIMAL_SMALLEST]
  unfold supportAssertHolds supportLoop
  rw [decide_eq_true_eq, supportLoopAux_fst, le_foldl_max_dot]
  simp [hS]

/-- Witness for C10: the translated tetrahedron lies strictly on the negative
side of the direction `(-1, 0, 0)`, and the assertion fails. -/
theorem supportAssert_iff_witness :
    supportAssertHolds shiftedTetShape ⟨-1, 0, 0⟩ = false := by
  have h := supportAssert_iff shiftedTetShape ⟨-1, 0, 0⟩
  have hno : ¬ ∃ v ∈ shiftedTetShape.convexMesh.vertices,
      (0 : ℚ) ≤ Vector3.dot ⟨-1, 0, 0⟩ v := by
    rintro ⟨v, hv, hge⟩
    have hv2 : v ∈ ([⟨1, 1, 1⟩, ⟨2, 1, 1⟩, ⟨1, 2, 1⟩, ⟨1, 1, 2⟩] : List Vector3) := hv
    fin_cases hv2 <;> norm_num [Vector3.dot] at hge
  cases hb : supportAssertHolds shiftedTetShape ⟨-1, 0, 0⟩
  · rfl
  · exact absurd (h.mp hb) hno

/-- C2: if some directed edge of the face-vertex description lacks a unique
matching reverse edge (open boundary or non-manifold), `finalize` reports the
recoverable `ManifoldError` and produces no topology, so no query can ever be
answered on the result. -/
theorem finalize_nonmanifold_fails (pointIndices : List ℕ) (faces : List (List ℕ))
    (h : ∃ e ∈ allDirectedEdges faces, twinCount (allDirectedEdges faces) e ≠ 1) :
    (∃ err, finalize pointIndices faces = Except.error err) ∧
    ∀ t, finalize pointIndices faces ≠ Except.ok t := by
  obtain ⟨e, he, hne⟩ := h
  cases hf : (allDirectedEdges faces).find?
      (fun e2 => decide (twinCount (allDirectedEdges faces) e2 ≠ 1)) with
  | none =>
    exfalso
    have := List.find?_eq_none.mp hf e he
    simp at this
    exact hne this
  | some e2 =>
    have hgoal : finalize pointIndices faces
        = Except.error (ManifoldError.missingOrDuplicateTwin e2.1 e2.2) := by
      simp only [finalize]
      rw [hf]
    constructor
    · exact ⟨ManifoldError.missingOrDuplicateTwin e2.1 e2.2, hgoal⟩
    · intro t
      rw [hgoal]
      intro hcontra
      cases hcontra

/-- Witness for C2: a single triangular face is an open boundary — every
directed edge lacks a reverse — and `finalize` fails. -/
theorem finalize_nonmanifold_fails_witness :
    (∃ err, finalize [0, 1, 2] [[0, 1, 2]] = Except.error err) ∧
    ∀ t, finalize [0, 1, 2] [[0, 1, 2]] ≠ Except.ok t :=
  finalize_nonmanifold_fails [0, 1, 2] [[0, 1, 2]] ⟨(0, 1), by decide, by decide⟩

end RP3D
